import Mathlib

/-!
A shallow embedding of the core of the zbus D-Bus client library
(`src/zbus/src/connection.rs` and `src/zbus/src/proxy.rs`): the message data
model, the serial allocator, the reference-counted match registry, the ordered
callback scope, method-call reply selection, the fd gate of the `Sink`
implementation, the proxy property cache and the signal stream filter.

Modelling conventions: header accessors that return `Result<Option<_>>` in the
source are modelled as `Option` values (decode failures are outside the model);
asynchronous interleaving is modelled by the order in which a task drains its
input items; bus round trips made by the match registry are recorded in an
output list and assumed to succeed.
-/

namespace Zbus

/-- D-Bus message types (`zbus::MessageType`), restricted to the four kinds the
modelled code inspects. -/
inductive MessageType
  | methodCall
  | methodReturn
  | error
  | signal
deriving DecidableEq

/-- The header and body fields of a `zbus::Message` that the modelled code
reads. `bodyUnique` is the body decoded as a unique name (read when handling
the `GetNameOwner` reply); `bodyNameOwner` is the body of a `NameOwnerChanged`
signal as the triple (name, old owner, new owner); `fds` is the list of file
descriptors attached to the message. -/
structure Message where
  typ : MessageType
  sender : Option String := none
  path : Option String := none
  interface : Option String := none
  member : Option String := none
  replySerial : Option Nat := none
  bodyUnique : String := ""
  bodyNameOwner : String × Option String × Option String := ("", none, none)
  fds : List Nat := []
deriving DecidableEq

/-- Errors surfaced by the modelled connection operations (`zbus::Error`).
The `io` constructor carries the `ErrorKind` name. -/
inductive ZbusError
  | io (kind : String)
  | methodError (reply : Message)
  | unsupported
deriving DecidableEq

/-! ### Serial allocator (`Connection::next_serial`, `ConnectionInner.serial`) -/

/-- The modulus of the `AtomicU32` serial counter. -/
def u32Mod : Nat := 2 ^ 32

/-- Initial counter value: `Connection::new` stores `AtomicU32::new(1)`. -/
def serialInit : Nat := 1

/-- `Connection::next_serial` is `self.inner.serial.fetch_add(1, SeqCst)`: it
returns the old counter value and stores the 32-bit wrapping successor. -/
def nextSerial (c : Nat) : Nat × Nat := (c, (c + 1) % u32Mod)

/-- The outputs of `n` successive `next_serial` calls starting from counter
state `c`. -/
def serialRun : Nat → Nat → List Nat
  | 0, _ => []
  | n + 1, c => (nextSerial c).1 :: serialRun n (nextSerial c).2

/-- The serial returned by the `k`-th allocation (counting from 0) on a fresh
connection; equals the `k`-th entry of `serialRun` from `serialInit` (see
`serialRun_mod`). -/
def serialAt (k : Nat) : Nat := (serialInit + k) % u32Mod

/-! ### Match registry (`Connection::add_match` / `Connection::remove_match`,
`ConnectionInner.signal_matches`) -/

/-- A bus round trip performed by the match registry against the broker. -/
inductive BusCall
  | addMatch (expr : String)
  | removeMatch (expr : String)
deriving DecidableEq

/-- The `signal_matches` map: match expression to refcount (`HashMap<String, u64>`). -/
abbrev MatchCounts := String → Option Nat

/-- `Connection::add_match`: on a vacant entry, call
`org.freedesktop.DBus.AddMatch` and insert refcount 1; on an occupied entry
just increment. Returns the updated map and the bus calls performed (bus
failures are outside the model). -/
def addMatch (counts : MatchCounts) (expr : String) : MatchCounts × List BusCall :=
  match counts expr with
  | none => (fun x => if x = expr then some 1 else counts x, [BusCall.addMatch expr])
  | some n => (fun x => if x = expr then some (n + 1) else counts x, [])

/-- `Connection::remove_match`: on a vacant entry return `Ok(false)` with no
bus call; on an occupied entry decrement, and when the count reaches zero call
`org.freedesktop.DBus.RemoveMatch` and evict the entry. -/
def removeMatch (counts : MatchCounts) (expr : String) :
    (MatchCounts × List BusCall) × Bool :=
  match counts expr with
  | none => ((counts, []), false)
  | some n =>
    if n - 1 = 0 then
      ((fun x => if x = expr then none else counts x, [BusCall.removeMatch expr]), true)
    else
      ((fun x => if x = expr then some (n - 1) else counts x, []), true)

/-- Invariant of `signal_matches`: every recorded refcount is at least 1 (an
entry is created with count 1 and evicted when the count reaches 0). -/
def matchInv (counts : MatchCounts) : Prop := ∀ e n, counts e = some n → 1 ≤ n

/-- One serialised subscription operation on the registry (the async mutex in
the source makes each bus call atomic with its refcount update). -/
inductive MatchOp
  | add (expr : String)
  | remove (expr : String)

/-- Run a sequence of registry operations, collecting all bus calls in order. -/
def runMatchOps (counts : MatchCounts) : List MatchOp → MatchCounts × List BusCall
  | [] => (counts, [])
  | op :: rest =>
    let step :=
      match op with
      | MatchOp.add e => addMatch counts e
      | MatchOp.remove e => (removeMatch counts e).1
    let next := runMatchOps step.1 rest
    (next.1, step.2 ++ next.2)

/-! ### Ordered callback scope (`OrderedCallbacks`) -/

/-- The filters and match expression of a registered `SignalHandler`; the
callback itself is identified externally by its slotmap key. -/
structure SignalHandler where
  filterMember : Option String
  filterPath : Option String
  filterInterface : Option String
  matchExpr : String
deriving DecidableEq

/-- The per-handler filter of `OrderedCallbacks::start_handlers`: each
configured filter field must equal the corresponding message header field
(the source compares with `Ok(Some(..))`; decode failures, which also skip the
handler, are outside the model). -/
def handlerMatches (h : SignalHandler) (m : Message) : Bool :=
  (match h.filterMember with
   | some mem => m.member == some mem
   | none => true)
  && (match h.filterPath with
      | some p => m.path == some p
      | none => true)
  && (match h.filterInterface with
      | some i => m.interface == some i
      | none => true)

/-- The mutable maps of an `OrderedCallbacks` scope: the slotmap of signal
handlers (keys are `Nat`) and the serial-keyed map of one-shot reply callbacks
(callbacks identified by a numeric id). -/
structure ScopeState where
  handlers : List (Nat × SignalHandler)
  replies : Nat → Option Nat

/-- A future pushed by `start_handlers`: a signal handler invocation (named by
its key) or a one-shot reply callback invocation (named by its callback id). -/
inductive Started
  | handler (key : Nat)
  | reply (callback : Nat)
deriving DecidableEq

/-- `OrderedCallbacks::start_handlers`: for a signal message push one future
per matching handler; otherwise, when the message has a `reply_serial`, remove
the reply callback from the map and, if one was present, push it. -/
def startHandlers (sc : ScopeState) (m : Message) : List Started × ScopeState :=
  if m.typ = MessageType.signal then
    ((sc.handlers.filter fun kh => handlerMatches kh.2 m).map fun kh => Started.handler kh.1,
      sc)
  else
    match m.replySerial with
    | some seq =>
      match sc.replies seq with
      | some cb =>
        ([Started.reply cb],
          { sc with replies := fun s => if s = seq then none else sc.replies s })
      | none => ([], sc)
    | none => ([], sc)

/-- `OrderedCallbacks::run`: drain the stream one message at a time; for each
message start the matching handler futures and await the whole batch
(`tasks.collect().await`) before taking the next message from the stream.
Returns the per-message batches in processing order and the final state. -/
def scopeRun (sc : ScopeState) : List Message → List (List Started) × ScopeState
  | [] => ([], sc)
  | m :: rest =>
    let step := startHandlers sc m
    let next := scopeRun step.2 rest
    (step.1 :: next.1, next.2)

/-! ### Method-call reply selection (`Connection::call_method_raw`) -/

/-- The predicate of the stream `filter` in `Connection::call_method_raw`: a
reply is a message of type `Error` or `MethodReturn` whose `reply_serial`
equals the serial assigned to the sent call. -/
def replyMatches (serial : Nat) (m : Message) : Bool :=
  decide ((m.typ = MessageType.error ∨ m.typ = MessageType.methodReturn)
    ∧ m.replySerial = some serial)

/-- `Connection::call_method_raw` after the send: scan the subscribed message
stream for the first item passing `replyMatches`. Stream items that are decode
errors (modelled as `none`) fail the predicate (`unwrap_or(false)`) and are
skipped; exhaustion of the stream (socket closed) is the `BrokenPipe` I/O
error; a matching reply of type `Error` is surfaced as `MethodError`. -/
def callMethodAwait (serial : Nat) : List (Option Message) → Except ZbusError Message
  | [] => Except.error (ZbusError.io "BrokenPipe")
  | none :: rest => callMethodAwait serial rest
  | some m :: rest =>
    if replyMatches serial m then
      if m.typ = MessageType.error then Except.error (ZbusError.methodError m)
      else Except.ok m
    else callMethodAwait serial rest

/-! ### Sink fd gate (`<&Connection as Sink<Message>>::start_send`) -/

/-- `start_send`: if the message carries file descriptors and the peer did not
negotiate fd passing, fail with `Unsupported` before touching the raw
connection; otherwise enqueue the message. The raw connection's send queue is
modelled as the list of enqueued messages. -/
def startSend (capUnixFd : Bool) (queue : List Message) (msg : Message) :
    Except ZbusError Unit × List Message :=
  if msg.fds ≠ [] ∧ capUnixFd = false then (Except.error ZbusError.unsupported, queue)
  else (Except.ok (), queue ++ [msg])

/-! ### Property cache (`PropertiesCache`, `Proxy::get_property_cache`,
`Proxy::cached_property`) -/

/-- The `PropertiesCache.values` map: property name to entry. An absent name
has no entry; an entry carrying `none` is an invalidated property (present but
unknown); `some v` is a cached value. -/
abbrev PropMap (α : Type) := String → Option (Option α)

variable {α : Type}

/-- One iteration of the `invalidated` loop of `PropertiesCache::update_cache`:
an existing entry's value is cleared (`entry.value = None`); an absent name is
left untouched. -/
def updateCacheInval (values : PropMap α) (name : String) : PropMap α :=
  fun n =>
    if n = name then
      match values name with
      | some _ => some none
      | none => none
    else values n

/-- One iteration of the `changed` loop of `PropertiesCache::update_cache`:
`entry(..).or_insert_with(default)` followed by `entry.value = Some(value)`,
i.e. the entry is created if needed and its value overwritten. -/
def updateCacheChange (values : PropMap α) (name : String) (v : α) : PropMap α :=
  fun n => if n = name then some (some v) else values n

/-- `PropertiesCache::update_cache`: apply all invalidations, then all changes
(the source iterates the `invalidated` vector first, then the `changed` map;
map keys are unique, so list order among distinct keys is irrelevant). -/
def updateCache (values : PropMap α) (changed : List (String × α))
    (invalidated : List String) : PropMap α :=
  changed.foldl (fun vs nv => updateCacheChange vs nv.1 nv.2)
    (invalidated.foldl updateCacheInval values)

/-- The parsed arguments of a `PropertiesChanged` signal (`update.args()`). -/
structure PropsChangedArgs (α : Type) where
  interfaceName : String
  changedProperties : List (String × α)
  invalidatedProperties : List String

/-- An item of the joined ordered stream consumed by the property-cache task:
a `PropertiesChanged` signal (left) or the `GetAll` outcome (right), in
arrival-sequence order, which is the order `ordered_stream::join` drains them.
A `right (Except.error _)` covers both a failed call and a body-parse failure;
in either case the cache values are not touched. -/
inductive JoinItem (α : Type)
  | left (update : PropsChangedArgs α)
  | right (populate : Except ZbusError (List (String × α)))

/-- One iteration of the drain loop in the property-cache task spawned by
`Proxy::get_property_cache`: a `PropertiesChanged` for the proxy's interface
applies `update_cache(changed, invalidated)`; the successful `GetAll` reply
applies `update_cache(body, [])` (and sends the `ready` outcome, not modelled);
errors leave the values untouched. -/
def cacheStep (interface : String) (values : PropMap α) : JoinItem α → PropMap α
  | JoinItem.left update =>
    if update.interfaceName = interface then
      updateCache values update.changedProperties update.invalidatedProperties
    else values
  | JoinItem.right (Except.ok body) => updateCache values body []
  | JoinItem.right (Except.error _) => values

/-- The property-cache task's drain loop over the joined ordered stream: items
are processed strictly in arrival order. -/
def runCacheTask (interface : String) (values : PropMap α)
    (items : List (JoinItem α)) : PropMap α :=
  items.foldl (cacheStep interface) values

/-- The `Deref` of the guard wrapper in `Proxy::cached_property_raw`:
`values.get(name).and_then(|e| e.value.as_ref()).expect("inexistent property")`.
The `expect` on an entry whose value is `None` is a panic, modelled as
`Except.error`. -/
def wrapperDeref (values : PropMap α) (name : String) : Except String α :=
  match values name with
  | some (some v) => Except.ok v
  | _ => Except.error "inexistent property"

/-- `Proxy::cached_property_raw`: `none` when the cache is disabled or not yet
initialised (`property_cache.as_ref().and_then(OnceCell::get)` fails) or when
`values.get(name)` is vacant; otherwise a wrapper around the read guard
(modelled as the map itself), without inspecting the entry's value. -/
def cachedPropertyRaw (cache : Option (PropMap α)) (name : String) :
    Option (PropMap α) :=
  match cache with
  | some values => if (values name).isSome then some values else none
  | none => none

/-- `Proxy::cached_property`: `cached_property_raw(name).as_deref().map(..)`.
The `as_deref` dereferences the wrapper, hence an invalidated entry panics via
`wrapperDeref`. The `T: TryFrom<OwnedValue>` conversion is modelled as the
identity. -/
def cachedProperty (cache : Option (PropMap α)) (name : String) :
    Except String (Option α) :=
  match cachedPropertyRaw cache name with
  | some values =>
    match wrapperDeref values name with
    | Except.ok v => Except.ok (some v)
    | Except.error e => Except.error e
  | none => Except.ok none

/-! ### Signal stream filter (`SignalStream::filter`, `SignalStream::poll_next`) -/

/-- The mutable selection state of a `SignalStream`: the pending `GetNameOwner`
reply serial (`src_query`), the tracked owner (`src_unique_name`), the watched
well-known name (`src_bus_name`), the optional member filter, and the proxy's
path and interface. -/
structure SignalStreamState where
  srcQuery : Option Nat
  srcUniqueName : Option String
  srcBusName : Option String
  member : Option String
  proxyPath : String
  proxyInterface : String
deriving DecidableEq

/-- The first block of `SignalStream::filter`: a `MethodReturn` matching the
pending `GetNameOwner` query consumes the query and seeds `src_unique_name`
from the reply body. -/
def gnoReplyStep (s : SignalStreamState) (m : Message) : SignalStreamState :=
  if m.typ = MessageType.methodReturn ∧ s.srcQuery.isSome ∧ m.replySerial = s.srcQuery then
    { s with srcQuery := none, srcUniqueName := some m.bodyUnique }
  else s

/-- The trailing block of `SignalStream::filter`: when a well-known name is
watched, a `NameOwnerChanged` signal from `org.freedesktop.DBus` for that name
updates `src_unique_name` to the new owner (possibly clearing it). -/
def nocStep (s : SignalStreamState) (m : Message) : SignalStreamState :=
  match s.srcBusName with
  | some busName =>
    if m.member = some "NameOwnerChanged"
        ∧ m.interface = some "org.freedesktop.DBus"
        ∧ m.path = some "/org/freedesktop/DBus"
        ∧ m.sender = some "org.freedesktop.DBus" then
      if m.bodyNameOwner.1 = busName then
        { s with srcUniqueName := m.bodyNameOwner.2.2 }
      else s
    else s
  | none => s

/-- `SignalStream::filter`: process the `GetNameOwner` reply, reject
non-signals, yield a signal whose member (when configured), path, interface
and optional sender all match (the sender is compared against the tracked
owner as two `Option`s), and otherwise run the `NameOwnerChanged` maintenance
in lock-step. Returns the verdict and the updated state;
`SignalStream::poll_next` yields exactly the messages with verdict `true`. -/
def signalFilter (s : SignalStreamState) (m : Message) : Bool × SignalStreamState :=
  let s1 := gnoReplyStep s m
  if m.typ ≠ MessageType.signal then (false, s1)
  else if (s1.member = none ∨ m.member = s1.member)
      ∧ m.path = some s1.proxyPath
      ∧ m.interface = some s1.proxyInterface
      ∧ m.sender = s1.srcUniqueName then
    (true, s1)
  else (false, nocStep s1 m)

/-! ### Concrete instances used by counterexamples and witnesses -/

/-- An empty property map. -/
def emptyProps : PropMap Nat := fun _ => none

/-- Scenario S4 of the spec, in joined-stream arrival order: a
`PropertiesChanged {foo: 2}` for interface `I` drained before the `GetAll`
reply `{foo: 1, bar: 3}`. -/
def s4Items : List (JoinItem Nat) :=
  [JoinItem.left ⟨"I", [("foo", 2)], []⟩,
   JoinItem.right (Except.ok [("foo", 1), ("bar", 3)])]

/-- The same two items with the `PropertiesChanged` drained after the `GetAll`
reply. -/
def s4ItemsAfter : List (JoinItem Nat) :=
  [JoinItem.right (Except.ok [("foo", 1), ("bar", 3)]),
   JoinItem.left ⟨"I", [("foo", 2)], []⟩]

/-- A cache holding a single invalidated entry for property `Foo`. -/
def invalidatedFooCache : PropMap Nat := fun n => if n = "Foo" then some none else none

/-- A cache holding a single valued entry `Foo = 7`. -/
def populatedCache : PropMap Nat := fun n => if n = "Foo" then some (some 7) else none

/-- A `SignalStream` state as built by `Proxy::receive_signals` for a
well-known destination, before the `GetNameOwner` reply has been processed:
the query is pending and no owner is tracked. -/
def c2State : SignalStreamState :=
  { srcQuery := some 5, srcUniqueName := none, srcBusName := some "org.example.Service",
    member := none, proxyPath := "/org/example/Object",
    proxyInterface := "org.example.Iface" }

/-- A signal matching `c2State`'s selection but carrying no sender field. -/
def c2Msg : Message :=
  { typ := MessageType.signal, sender := none, path := some "/org/example/Object",
    interface := some "org.example.Iface", member := some "StateChanged" }

/-- A handler selecting `StateChanged` on `/org/example/Object`,
`org.example.Iface`. -/
def c4Handler : SignalHandler :=
  { filterMember := some "StateChanged", filterPath := some "/org/example/Object",
    filterInterface := some "org.example.Iface", matchExpr := "type='signal'" }

/-- A scope holding `c4Handler` under key 0 and no reply callbacks. -/
def c4Scope : ScopeState := { handlers := [(0, c4Handler)], replies := fun _ => none }

/-- A signal message matching `c4Handler`. -/
def c4Msg : Message :=
  { typ := MessageType.signal, sender := some ":1.7", path := some "/org/example/Object",
    interface := some "org.example.Iface", member := some "StateChanged" }

/-- A signal message unrelated to any pending reply. -/
def c6Other : Message := { typ := MessageType.signal }

/-- An error reply carrying `reply_serial = 7`. -/
def c6Err : Message := { typ := MessageType.error, replySerial := some 7 }

/-- A method call carrying one file descriptor. -/
def fdMsg : Message := { typ := MessageType.methodCall, fds := [3] }

/-! ## Theorems -/

/-- Closed form of `serialRun`: from a counter below the modulus, the `i`-th
output is `(c + i) % u32Mod`. -/
theorem serialRun_mod : ∀ (n c : Nat), c < u32Mod →
    serialRun n c = (List.range n).map (fun i => (c + i) % u32Mod) := by
  intro n
  induction n with
  | zero => intro c _; simp [serialRun]
  | succ k ih =>
    intro c hc
    have hstep : (c + 1) % u32Mod < u32Mod := Nat.mod_lt _ (by norm_num [u32Mod])
    have htail := ih ((c + 1) % u32Mod) hstep
    have hmap : (List.range k).map (fun i => ((c + 1) % u32Mod + i) % u32Mod)
        = (List.range k).map (fun i => (c + (i + 1)) % u32Mod) := by
      refine List.map_congr_left ?_
      intro i _
      rw [Nat.mod_add_mod]
      congr 1
      omega
    calc serialRun (k + 1) c
        = c :: serialRun k ((c + 1) % u32Mod) := rfl
      _ = c :: (List.range k).map (fun i => ((c + 1) % u32Mod + i) % u32Mod) := by
            rw [htail]
      _ = c :: (List.range k).map (fun i => (c + (i + 1)) % u32Mod) := by rw [hmap]
      _ = (List.range (k + 1)).map (fun i => (c + i) % u32Mod) := by
            rw [List.range_succ_eq_map, List.map_cons, List.map_map, Nat.add_zero,
              Nat.mod_eq_of_lt hc]
            simp [Function.comp_def, Nat.succ_eq_add_one]

/-- Claim C5, counterexample: starting from counter state `u32Mod - 1`, ten
successive `next_serial` calls do not produce `s, s+1, ..., s+9`; the counter
wraps after returning `u32::MAX`. -/
theorem C5_counterexample :
    serialRun 10 (u32Mod - 1) = [u32Mod - 1, 0, 1, 2, 3, 4, 5, 6, 7, 8]
    ∧ serialRun 10 (u32Mod - 1)
      ≠ [u32Mod - 1, u32Mod - 1 + 1, u32Mod - 1 + 2, u32Mod - 1 + 3, u32Mod - 1 + 4,
         u32Mod - 1 + 5, u32Mod - 1 + 6, u32Mod - 1 + 7, u32Mod - 1 + 8, u32Mod - 1 + 9] := by
  constructor
  · decide
  · decide

/-- Claim C5 (amended): the serial counter starts at 1, and as long as no
32-bit wrap occurs among them (`s + 9 < 2^32`), ten successive `next_serial`
calls starting from state `s` produce `s, s+1, ..., s+9`. -/
theorem C5_theorem (s : Nat) (h : s + 9 < u32Mod) :
    serialRun 10 s = [s, s + 1, s + 2, s + 3, s + 4, s + 5, s + 6, s + 7, s + 8, s + 9]
    ∧ serialInit = 1 := by
  refine ⟨?_, rfl⟩
  rw [serialRun_mod 10 s (by omega)]
  have he : ∀ i, i ≤ 9 → (s + i) % u32Mod = s + i := fun i hi => Nat.mod_eq_of_lt (by omega)
  rw [show List.range 10 = [0, 1, 2, 3, 4, 5, 6, 7, 8, 9] from rfl]
  simp only [List.map_cons, List.map_nil]
  rw [he 0 (by omega), he 1 (by omega), he 2 (by omega), he 3 (by omega), he 4 (by omega),
    he 5 (by omega), he 6 (by omega), he 7 (by omega), he 8 (by omega), he 9 (by omega)]
  simp

/-- Witness for C5 at the initial counter state 1. -/
theorem C5_witness :
    serialRun 10 1 = [1, 2, 3, 4, 5, 6, 7, 8, 9, 10] ∧ serialInit = 1 := by
  have h := C5_theorem 1 (by norm_num [u32Mod])
  simpa using h

/-- Claim C10: `next_serial` uses 32-bit wrapping addition and never panics
(it is a total function): at counter `u32::MAX` it returns `u32::MAX` and the
counter silently wraps to 0; the serials of the first `n ≤ 2^32` allocations
on a fresh connection are pairwise distinct and, for `n < 2^32`, strictly
increasing; the allocation `2^32` repeats the serial of allocation 0. -/
theorem C10_theorem (n : Nat) (hn : n ≤ u32Mod) :
    nextSerial (u32Mod - 1) = (u32Mod - 1, 0)
    ∧ (serialRun n serialInit).Nodup
    ∧ (n < u32Mod → (serialRun n serialInit).Pairwise (· < ·))
    ∧ serialAt 0 = serialAt u32Mod := by
  have hm : u32Mod = 4294967296 := by norm_num [u32Mod]
  have hsi : serialInit = 1 := rfl
  have hinit : serialInit < u32Mod := by norm_num [serialInit, u32Mod]
  refine ⟨?_, ?_, ?_, ?_⟩
  · have h1 : u32Mod - 1 + 1 = u32Mod := by omega
    simp [nextSerial, h1, Nat.mod_self]
  · rw [serialRun_mod n serialInit hinit]
    refine List.Nodup.map_on ?_ (List.nodup_range n)
    intro i hi j hj hij
    rw [List.mem_range] at hi hj
    have hmod : Nat.ModEq u32Mod (serialInit + i) (serialInit + j) := hij
    have hcan := Nat.ModEq.add_left_cancel' serialInit hmod
    have hiu : i < u32Mod := lt_of_lt_of_le hi hn
    have hju : j < u32Mod := lt_of_lt_of_le hj hn
    calc i = i % u32Mod := (Nat.mod_eq_of_lt hiu).symm
      _ = j % u32Mod := hcan
      _ = j := Nat.mod_eq_of_lt hju
  · intro hlt
    rw [serialRun_mod n serialInit hinit]
    rw [List.pairwise_map]
    refine List.Pairwise.imp_of_mem ?_ (List.pairwise_lt_range n)
    intro i j hi hj hij
    rw [List.mem_range] at hi hj
    have h1 : (serialInit + i) % u32Mod = serialInit + i := Nat.mod_eq_of_lt (by omega)
    have h2 : (serialInit + j) % u32Mod = serialInit + j := Nat.mod_eq_of_lt (by omega)
    rw [h1, h2]
    omega
  · simp [serialAt, serialInit, Nat.add_mod_right]

/-- Witness for C10 at `n = 3`. -/
theorem C10_witness :
    nextSerial (u32Mod - 1) = (u32Mod - 1, 0)
    ∧ (serialRun 3 serialInit).Nodup
    ∧ (3 < u32Mod → (serialRun 3 serialInit).Pairwise (· < ·))
    ∧ serialAt 0 = serialAt u32Mod :=
  C10_theorem 3 (by norm_num [u32Mod])

/-- Claim C3: on a registry whose counts satisfy the refcount invariant, an
`AddMatch` bus call is made exactly when the expression is absent (refcount
goes 0 to 1); a `RemoveMatch` bus call is made exactly when the refcount is 1
(it reaches 0), in which case the entry is evicted; both operations preserve
the invariant; and the two-subscription scenario performs exactly one
`AddMatch`, no bus call on the first drop, and exactly one `RemoveMatch` on
the second drop. -/
theorem C3_theorem (counts : MatchCounts) (e : String) (hinv : matchInv counts) :
    ((addMatch counts e).2 = [BusCall.addMatch e] ↔ counts e = none)
    ∧ ((removeMatch counts e).1.2 = [BusCall.removeMatch e] ↔ counts e = some 1)
    ∧ (counts e = some 1 → (removeMatch counts e).1.1 e = none)
    ∧ matchInv (addMatch counts e).1
    ∧ matchInv (removeMatch counts e).1.1
    ∧ (runMatchOps (fun _ => none) [MatchOp.add e, MatchOp.add e, MatchOp.remove e]).2
        = [BusCall.addMatch e]
    ∧ (runMatchOps (fun _ => none)
          [MatchOp.add e, MatchOp.add e, MatchOp.remove e, MatchOp.remove e]).2
        = [BusCall.addMatch e, BusCall.removeMatch e] := by
  refine ⟨?_, ?_, ?_, ?_, ?_, ?_, ?_⟩
  · cases hc : counts e with
    | none => simp [addMatch, hc]
    | some n => simp [addMatch, hc]
  · cases hc : counts e with
    | none => simp [removeMatch, hc]
    | some n =>
      have h1 := hinv e n hc
      by_cases hz : n - 1 = 0
      · have hn1 : n = 1 := by omega
        simp [removeMatch, hc, hz, hn1]
      · have hn1 : n ≠ 1 := by omega
        simp [removeMatch, hc, hz, hn1]
  · intro hc
    simp [removeMatch, hc]
  · intro e' n' h'
    cases hc : counts e with
    | none =>
      simp only [addMatch, hc] at h'
      by_cases he : e' = e
      · simp [he] at h'; omega
      · rw [if_neg he] at h'
        exact hinv e' n' h'
    | some n =>
      simp only [addMatch, hc] at h'
      by_cases he : e' = e
      · simp [he] at h'; omega
      · rw [if_neg he] at h'
        exact hinv e' n' h'
  · intro e' n' h'
    cases hc : counts e with
    | none =>
      simp only [removeMatch, hc] at h'
      exact hinv e' n' h'
    | some n =>
      simp only [removeMatch, hc] at h'
      by_cases hz : n - 1 = 0
      · rw [if_pos hz] at h'
        by_cases he : e' = e
        · simp [he] at h'
        · simp only at h'
          rw [if_neg he] at h'
          exact hinv e' n' h'
      · rw [if_neg hz] at h'
        by_cases he : e' = e
        · simp [he] at h'; omega
        · simp only at h'
          rw [if_neg he] at h'
          exact hinv e' n' h'
  · simp [runMatchOps, addMatch, removeMatch]
  · simp [runMatchOps, addMatch, removeMatch]

/-- Witness for C3: the empty registry satisfies the invariant, and the
two-subscription scenario for a concrete expression performs exactly
`[AddMatch, RemoveMatch]`. -/
theorem C3_witness :
    (runMatchOps (fun _ => none)
        [MatchOp.add "type='signal'", MatchOp.add "type='signal'",
         MatchOp.remove "type='signal'", MatchOp.remove "type='signal'"]).2
      = [BusCall.addMatch "type='signal'", BusCall.removeMatch "type='signal'"] :=
  (C3_theorem (fun _ => none) "type='signal'"
      (fun _ _ h => Option.noConfusion h)).2.2.2.2.2.2

/-- Helper for C4: in a handler list with distinct keys, the batch built by
`start_handlers` for a signal contains the future of handler `(k, h)` exactly
once when `h` matches the message and not at all otherwise. -/
theorem started_count_aux (m : Message) (k : Nat) (h : SignalHandler) :
    ∀ hs : List (Nat × SignalHandler), (hs.map Prod.fst).Nodup → (k, h) ∈ hs →
      ((hs.filter fun kh => handlerMatches kh.2 m).map fun kh => Started.handler kh.1).count
        (Started.handler k) = if handlerMatches h m then 1 else 0 := by
  intro hs
  induction hs with
  | nil => intro _ hmem; cases hmem
  | cons head tail ih =>
    obtain ⟨k1, h1⟩ := head
    intro hnd hmem
    rw [List.map_cons, List.nodup_cons] at hnd
    obtain ⟨hhead, htail⟩ := hnd
    have hzero : ∀ key : Nat, key ∉ tail.map Prod.fst →
        ((tail.filter fun kh => handlerMatches kh.2 m).map fun kh => Started.handler kh.1).count
          (Started.handler key) = 0 := by
      intro key hkey
      rw [List.count_eq_zero]
      intro hmem'
      obtain ⟨kh, hkhmem, hkheq⟩ := List.mem_map.mp hmem'
      have hk1 : kh.1 = key := by
        injection hkheq
      exact hkey (hk1 ▸ List.mem_map_of_mem Prod.fst (List.mem_of_mem_filter hkhmem))
    rcases List.mem_cons.mp hmem with heq | hmemtail
    · obtain ⟨hk, hh⟩ := Prod.mk.inj heq
      subst hk
      subst hh
      rw [List.filter_cons]
      by_cases hmatch : handlerMatches h m = true
      · rw [if_pos (by simpa using hmatch), List.map_cons, List.count_cons_self,
          hzero k hhead, hmatch]
        simp
      · rw [if_neg (by simpa using hmatch), hzero k hhead]
        simp [hmatch]
    · have hkne : k1 ≠ k := by
        intro hEq
        refine hhead ?_
        rw [hEq]
        exact List.mem_map.mpr ⟨(k, h), hmemtail, rfl⟩
      have hne : Started.handler k ≠ Started.handler k1 := by
        intro hEq
        exact hkne (Started.handler.inj hEq).symm
      rw [List.filter_cons]
      by_cases hmatch1 : handlerMatches h1 m = true
      · rw [if_pos (by simpa using hmatch1), List.map_cons, List.count_cons_of_ne hne]
        exact ih htail hmemtail
      · rw [if_neg (by simpa using hmatch1)]
        exact ih htail hmemtail

/-- Claim C4: in a scope whose handler keys are distinct, every registered
handler whose filter matches a signal message is started exactly once for that
message (and a non-matching handler not at all), and the scope task processes
its stream strictly per message: the batch for the head message is determined
and completed before the remaining messages are processed. -/
theorem C4_theorem (sc : ScopeState) (m : Message) (k : Nat) (h : SignalHandler)
    (hnd : (sc.handlers.map Prod.fst).Nodup) (hmem : (k, h) ∈ sc.handlers)
    (hsig : m.typ = MessageType.signal) :
    ((startHandlers sc m).1.count (Started.handler k)
      = if handlerMatches h m then 1 else 0)
    ∧ (∀ rest, (scopeRun sc (m :: rest)).1
        = (startHandlers sc m).1 :: (scopeRun (startHandlers sc m).2 rest).1) := by
  refine ⟨?_, fun rest => rfl⟩
  rw [startHandlers, if_pos hsig]
  exact started_count_aux m k h sc.handlers hnd hmem

/-- Witness for C4 at a concrete one-handler scope and a matching signal. -/
theorem C4_witness :
    ((startHandlers c4Scope c4Msg).1.count (Started.handler 0)
      = if handlerMatches c4Handler c4Msg then 1 else 0)
    ∧ (∀ rest, (scopeRun c4Scope (c4Msg :: rest)).1
        = (startHandlers c4Scope c4Msg).1 :: (scopeRun (startHandlers c4Scope c4Msg).2 rest).1) :=
  C4_theorem c4Scope c4Msg 0 c4Handler (by simp [c4Scope]) (by simp [c4Scope]) rfl

/-- Claim C9: reply callbacks are single-shot. Processing a non-signal message
with a registered `reply_serial` removes the callback from the replies map
before it is started, so after the first delivery the map has no entry for the
serial and a second message carrying the same `reply_serial` starts no
callback; the first batch contains exactly the registered callback (or nothing
if none was registered). -/
theorem C9_theorem (sc : ScopeState) (m m2 : Message) (seq : Nat)
    (h1 : ¬m.typ = MessageType.signal) (hrs : m.replySerial = some seq)
    (h2 : ¬m2.typ = MessageType.signal) (hrs2 : m2.replySerial = some seq) :
    (startHandlers sc m).2.replies seq = none
    ∧ (startHandlers (startHandlers sc m).2 m2).1 = []
    ∧ (startHandlers sc m).1
      = (match sc.replies seq with
         | some cb => [Started.reply cb]
         | none => []) := by
  cases hc : sc.replies seq with
  | some cb => simp [startHandlers, h1, h2, hrs, hrs2, hc]
  | none => simp [startHandlers, h1, h2, hrs, hrs2, hc]

/-- Witness for C9: a scope with one reply callback registered for serial 7
and two error replies carrying that serial. -/
theorem C9_witness :
    (startHandlers ⟨[], fun s => if s = 7 then some 42 else none⟩ c6Err).2.replies 7 = none
    ∧ (startHandlers
        (startHandlers ⟨[], fun s => if s = 7 then some 42 else none⟩ c6Err).2 c6Err).1 = []
    ∧ (startHandlers ⟨[], fun s => if s = 7 then some 42 else none⟩ c6Err).1
      = (match (fun s => if s = 7 then some 42 else none : Nat → Option Nat) 7 with
         | some cb => [Started.reply cb]
         | none => []) :=
  C9_theorem ⟨[], fun s => if s = 7 then some 42 else none⟩ c6Err c6Err 7
    (by simp [c6Err]) rfl (by simp [c6Err]) rfl

/-- Claim C6: `call_method` (via `call_method_raw`) ends with `BrokenPipe`
exactly when no incoming message matches the reply predicate before the stream
ends; otherwise it resolves with the first matching message, surfaced as
`Ok` for a `MethodReturn` and as a typed `MethodError` for an `Error`. -/
theorem C6_theorem (serial : Nat) :
    (∀ items : List (Option Message),
      (callMethodAwait serial items = Except.error (ZbusError.io "BrokenPipe")
        ↔ ∀ m : Message, some m ∈ items → replyMatches serial m = false))
    ∧ (∀ (pre post : List (Option Message)) (m : Message),
        (∀ m2 : Message, some m2 ∈ pre → replyMatches serial m2 = false) →
        replyMatches serial m = true →
        callMethodAwait serial (pre ++ some m :: post)
          = if m.typ = MessageType.error then Except.error (ZbusError.methodError m)
            else Except.ok m) := by
  constructor
  · intro items
    induction items with
    | nil => simp [callMethodAwait]
    | cons it rest ih =>
      cases it with
      | none =>
        rw [callMethodAwait, ih]
        constructor
        · intro hall m hm
          rcases List.mem_cons.mp hm with hEq | hm2
          · exact absurd hEq (by simp)
          · exact hall m hm2
        · intro hall m hm
          exact hall m (List.mem_cons_of_mem _ hm)
      | some m =>
        by_cases hm : replyMatches serial m = true
        · refine iff_of_false ?_ ?_
          · rw [callMethodAwait, if_pos hm]
            by_cases ht : m.typ = MessageType.error
            · rw [if_pos ht]
              simp
            · rw [if_neg ht]
              simp
          · intro hall
            have := hall m (List.mem_cons_self _ _)
            rw [hm] at this
            cases this
        · have hm' : replyMatches serial m = false := by
            revert hm
            cases replyMatches serial m <;> simp
          rw [callMethodAwait, if_neg (by simp [hm']), ih]
          constructor
          · intro hall m2 hmem
            rcases List.mem_cons.mp hmem with hEq | hmem2
            · have : m2 = m := by simpa using hEq
              rw [this]
              exact hm'
            · exact hall m2 hmem2
          · intro hall m2 hmem
            exact hall m2 (List.mem_cons_of_mem _ hmem)
  · intro pre
    induction pre with
    | nil =>
      intro post m _ hm
      rw [List.nil_append, callMethodAwait, if_pos hm]
    | cons it rest ih =>
      intro post m hpre hm
      cases it with
      | none =>
        rw [List.cons_append, callMethodAwait]
        exact ih post m (fun m2 hmem => hpre m2 (List.mem_cons_of_mem _ hmem)) hm
      | some m2 =>
        have hskip : replyMatches serial m2 = false := hpre m2 (List.mem_cons_self _ _)
        rw [List.cons_append, callMethodAwait, if_neg (by simp [hskip])]
        exact ih post m (fun m3 hmem => hpre m3 (List.mem_cons_of_mem _ hmem)) hm

/-- Witness for C6: an unmatched decode error and an unmatched signal are
skipped and an error reply with the awaited serial surfaces as `MethodError`. -/
theorem C6_witness :
    callMethodAwait 7 ([none, some c6Other] ++ some c6Err :: [])
      = Except.error (ZbusError.methodError c6Err) := by
  have h := (C6_theorem 7).2 [none, some c6Other] [] c6Err
    (by
      intro m2 hm2
      have : m2 = c6Other := by simpa using hm2
      rw [this]
      rfl)
    rfl
  simpa [c6Err] using h

/-- Claim C8: `start_send` fails with `Unsupported` exactly when the message
carries at least one file descriptor and fd passing was not negotiated, and in
that case the raw connection's queue is unchanged; otherwise the message is
enqueued. -/
theorem C8_theorem (capUnixFd : Bool) (queue : List Message) (msg : Message) :
    ((startSend capUnixFd queue msg).1 = Except.error ZbusError.unsupported
      ↔ msg.fds ≠ [] ∧ capUnixFd = false)
    ∧ (msg.fds ≠ [] ∧ capUnixFd = false → (startSend capUnixFd queue msg).2 = queue)
    ∧ (¬(msg.fds ≠ [] ∧ capUnixFd = false)
        → startSend capUnixFd queue msg = (Except.ok (), queue ++ [msg])) := by
  unfold startSend
  by_cases hc : msg.fds ≠ [] ∧ capUnixFd = false
  · simp [hc]
  · simp [hc]

/-- Witness for C8: a message with one fd on a connection without fd passing
fails with `Unsupported` and leaves the queue empty. -/
theorem C8_witness :
    (startSend false [] fdMsg).1 = Except.error ZbusError.unsupported
    ∧ (startSend false [] fdMsg).2 = [] :=
  ⟨(C8_theorem false [] fdMsg).1.mpr (by simp [fdMsg]),
   (C8_theorem false [] fdMsg).2.1 (by simp [fdMsg])⟩

/-- Claim C1, counterexample: in scenario S4 a `PropertiesChanged {foo: 2}`
drained before the `GetAll` reply `{foo: 1, bar: 3}` is overwritten by the
reply, because `update_cache` stores every key of the `GetAll` body
unconditionally; after the drain, `foo` yields 1, not 2. -/
theorem C1_counterexample :
    cachedProperty (some (runCacheTask "I" emptyProps s4Items)) "foo" = Except.ok (some 1)
    ∧ cachedProperty (some (runCacheTask "I" emptyProps s4Items)) "foo"
        ≠ Except.ok (some 2)
    ∧ cachedProperty (some (runCacheTask "I" emptyProps s4Items)) "bar"
        = Except.ok (some 3) := by
  refine ⟨rfl, ?_, rfl⟩
  intro hcontra
  have h1 : (Except.ok (some 1) : Except String (Option Nat)) = Except.ok (some 2) := hcontra
  simp at h1

/-- Claim C1 (amended): the `GetAll` reply is applied at its own position in
the joined order, like any other item: values set by `PropertiesChanged`
signals drained before it are overwritten by the reply body (in scenario S4,
`foo` yields 1 and `bar` yields 3 after the drain), while signals drained
after the reply overwrite the reply's values and are never overwritten by it
(`foo` yields 2 when the signal comes after the reply). -/
theorem C1_theorem :
    cachedProperty (some (runCacheTask "I" emptyProps s4Items)) "foo" = Except.ok (some 1)
    ∧ cachedProperty (some (runCacheTask "I" emptyProps s4Items)) "bar" = Except.ok (some 3)
    ∧ cachedProperty (some (runCacheTask "I" emptyProps s4ItemsAfter)) "foo"
        = Except.ok (some 2)
    ∧ cachedProperty (some (runCacheTask "I" emptyProps s4ItemsAfter)) "bar"
        = Except.ok (some 3) :=
  ⟨rfl, rfl, rfl, rfl⟩

/-- Claim C7: the claim is right and the code is wrong. `cached_property`
returns `Some v` for an entry holding `v` and `None` for an absent entry or a
disabled cache, but on an entry that exists and is invalidated (value `None`)
it does not return `None`: `cached_property_raw` only checks entry presence
and the wrapper's `Deref` panics with `expect("inexistent property")`. -/
theorem C7_theorem :
    cachedProperty (some invalidatedFooCache) "Foo" = Except.error "inexistent property"
    ∧ cachedProperty (some populatedCache) "Foo" = Except.ok (some 7)
    ∧ cachedProperty (some populatedCache) "Bar" = Except.ok none
    ∧ cachedProperty (none : Option (PropMap Nat)) "Foo" = Except.ok none :=
  ⟨rfl, rfl, rfl, rfl⟩

/-- Claim C2 (amended): `SignalStream::filter` yields a message exactly when
it is a signal whose member (when a member is configured), path and interface
match the stream's selection and whose optional sender field equals the
currently tracked owner option; both sides of the sender comparison may be
absent, so for a well-known destination before the `GetNameOwner` reply is
processed no message carrying a sender is yielded, but a matching signal
without a sender is. -/
theorem C2_theorem (s : SignalStreamState) (m : Message) :
    (signalFilter s m).1 = true ↔
      (m.typ = MessageType.signal
        ∧ (s.member = none ∨ m.member = s.member)
        ∧ m.path = some s.proxyPath
        ∧ m.interface = some s.proxyInterface
        ∧ m.sender = s.srcUniqueName) := by
  by_cases hsig : m.typ = MessageType.signal
  · have hg : gnoReplyStep s m = s := by
      rw [gnoReplyStep, if_neg]
      rw [hsig]
      rintro ⟨hmr, -⟩
      cases hmr
    rw [signalFilter]
    simp only [hg]
    rw [if_neg (by simp [hsig])]
    by_cases hcond : (s.member = none ∨ m.member = s.member)
        ∧ m.path = some s.proxyPath
        ∧ m.interface = some s.proxyInterface
        ∧ m.sender = s.srcUniqueName
    · rw [if_pos hcond]
      exact ⟨fun _ => ⟨hsig, hcond⟩, fun _ => rfl⟩
    · rw [if_neg hcond]
      exact iff_of_false (by simp) (fun hc => hcond hc.2)
  · rw [signalFilter]
    rw [if_pos hsig]
    exact iff_of_false (by simp) (fun hc => hsig hc.1)

/-- Claim C2, counterexample: in the state built for a well-known destination
before the `GetNameOwner` reply is processed (the query is still pending and
no owner is tracked), a matching signal that carries no sender field is
yielded, because `None == None` passes the sender comparison. -/
theorem C2_counterexample :
    c2State.srcQuery = some 5
    ∧ c2State.srcUniqueName = none
    ∧ c2Msg.sender = none
    ∧ (signalFilter c2State c2Msg).1 = true :=
  ⟨rfl, rfl, rfl, rfl⟩

end Zbus
